import Mathlib

/-!
Shallow embedding of the TIS-100 style cycle engine in src/src/main.rs.

Modelling conventions:
* i16 values are modelled as Int; saturating arithmetic is written with
  explicit clamping to [-32768, 32767].
* The u8 instruction pointer is modelled as Nat (its u8 overflow is
  unreachable because the pointer always stays below 21).
* Rust panics are modelled as Except.error values of type Fault:
  unwrap on None, the unimplemented and unreachable macros, slice index
  out of range, arithmetic overflow of the debug build (negating -32768),
  and the explicit write-deadlock panic in the plane step.
* Fixed-size Rust arrays become Lists of the same length; in-place loops
  become explicit recursion threading the state, in the same order as the
  source.
-/

namespace TIS

/-- Ways the Rust program aborts; one constructor per panic site kind. -/
inductive Fault
  | unimplementedCode
  | unwrapNone
  | overflow
  | writeDeadlock
  | indexOutOfBounds
  | unreachableCode
  deriving DecidableEq, Repr

def I16_MIN : Int := -32768

def I16_MAX : Int := 32767

/-- Rust i16 saturating_add. -/
def satAdd (a b : Int) : Int := max I16_MIN (min I16_MAX (a + b))

/-- Rust enum Register (BAK exists but is not addressable). -/
inductive Register
  | acc
  | nil
  deriving DecidableEq, Repr

/-- Rust enum TruePort. -/
inductive TruePort
  | up
  | down
  | left
  | right
  | any
  deriving DecidableEq, Repr

/-- Rust enum Port; the first constructor is Port::True in the source. -/
inductive Port
  | direct (p : TruePort)
  | last
  deriving DecidableEq, Repr

/-- Rust enum Src. -/
inductive Src
  | port (p : Port)
  | register (r : Register)
  | literal (v : Int)
  deriving DecidableEq, Repr

/-- Rust enum Dst. -/
inductive Dst
  | port (p : Port)
  | register (r : Register)
  deriving DecidableEq, Repr

/-- Rust enum Mode. -/
inductive Mode
  | run
  | read
  | write
  deriving DecidableEq, Repr

/-- Rust enum Instruction. -/
inductive Instruction
  | add (s : Src)
  | sub (s : Src)
  | mov (s : Src) (d : Dst)
  | sav
  | swp
  | neg
  | jro (s : Src)
  | jez (s : Src)
  | jnz (s : Src)
  | jgz (s : Src)
  | jlz (s : Src)
  | hcf
  deriving DecidableEq, Repr

/-- Rust Instruction::get_src. -/
def Instruction.get_src : Instruction → Option Src
  | .mov s _ | .sub s | .add s | .jro s | .jez s | .jnz s | .jgz s | .jlz s => some s
  | _ => none

def NODES_PER_PLANE : Nat := 12

def INSTRUCTIONS_PER_NODE : Nat := 21

/-- Rust struct ExecutionNode. -/
structure ExecutionNode where
  acc : Int
  bak : Int
  instruction_pointer : Nat
  current_instruction : Option Instruction
  port_read_buffer : Option Int
  port_write_buffer : Option Int
  direction : Option TruePort
  last_port : Option TruePort
  mode : Mode
  deriving DecidableEq, Repr

/-- Rust ExecutionNode::new. -/
def ExecutionNode.new : ExecutionNode :=
  { acc := 0
    bak := 0
    instruction_pointer := 0
    current_instruction := none
    port_read_buffer := none
    port_write_buffer := none
    direction := none
    last_port := none
    mode := .run }

/-- Rust ExecutionNode::map_port; unwrap of an unset last_port is a fault. -/
def ExecutionNode.map_port (n : ExecutionNode) (p : Port) : Except Fault TruePort :=
  match p with
  | .direct q => .ok q
  | .last =>
    match n.last_port with
    | some q => .ok q
    | none => .error .unwrapNone

/-- Rust ExecutionNode::fetch. An empty slot resets the pointer to 0 and
latches slot 0; an out-of-range pointer would be a slice index panic. -/
def ExecutionNode.fetch (n : ExecutionNode) (instructions : List (Option Instruction)) :
    Except Fault ExecutionNode :=
  match instructions.get? n.instruction_pointer with
  | none => .error .indexOutOfBounds
  | some (some instruction) => .ok { n with current_instruction := some instruction }
  | some none =>
    match instructions.get? 0 with
    | none => .error .indexOutOfBounds
    | some c => .ok { n with instruction_pointer := 0, current_instruction := c }

/-- Rust ExecutionNode::increment_instruction_pointer. -/
def ExecutionNode.increment_instruction_pointer (n : ExecutionNode) : ExecutionNode :=
  if INSTRUCTIONS_PER_NODE ≤ n.instruction_pointer + 1 then
    { n with instruction_pointer := 0 }
  else { n with instruction_pointer := n.instruction_pointer + 1 }

/-- Rust ExecutionNode::resolve_write. -/
def ExecutionNode.resolve_write (n : ExecutionNode) : ExecutionNode :=
  ExecutionNode.increment_instruction_pointer { n with mode := .run }

/-- Rust ExecutionNode::read_step (Phase B, pre-read). -/
def ExecutionNode.read_step (n : ExecutionNode) : Except Fault ExecutionNode :=
  match n.mode with
  | .read => .ok n
  | .write => .ok n
  | .run =>
    match n.current_instruction with
    | none => .ok n
    | some instruction =>
      match instruction.get_src with
      | none => .ok n
      | some src =>
        match src with
        | .port p =>
          match n.map_port p with
          | .error e => .error e
          | .ok d => .ok { n with mode := .read, direction := some d, last_port := some d }
        | _ => .ok n

/-- The mode side effect of reading the source in Rust
ExecutionNode::mov: a successful port read (populated buffer, not in
Write mode) resets the mode to Run. -/
def movValueNode (n : ExecutionNode) (src : Src) : ExecutionNode :=
  match src with
  | .port _ =>
    if n.port_read_buffer.isSome ∧ n.mode ≠ .write then { n with mode := .run } else n
  | _ => n

/-- The source value computed in Rust ExecutionNode::mov. A port source
yields the read buffer (without clearing it, exactly as in the source). -/
def movValue (n : ExecutionNode) (src : Src) : Option Int :=
  match src with
  | .port _ => n.port_read_buffer
  | .register .acc => some n.acc
  | .register .nil => some 0
  | .literal v => some v

/-- The destination dispatch of Rust ExecutionNode::mov: a missing value
is an early return; a port destination outside Write mode publishes the
value into the write buffer and enters Write; an ACC destination assigns;
a NIL destination discards. -/
def movWrite (n1 : ExecutionNode) (value : Option Int) (dst : Dst) :
    Except Fault ExecutionNode :=
  match value with
  | none => .ok n1
  | some v =>
    match dst with
    | .port p =>
      if n1.mode ≠ .write then
        match n1.map_port p with
        | .error e => .error e
        | .ok d =>
          .ok { n1 with
                mode := .write
                port_write_buffer := some v
                direction := some d
                last_port := some d }
      else .ok n1
    | .register .acc => .ok { n1 with acc := v }
    | .register .nil => .ok n1

/-- Rust ExecutionNode::mov, assembled from its three stages. -/
def ExecutionNode.mov (n : ExecutionNode) (src : Src) (dst : Dst) :
    Except Fault ExecutionNode :=
  movWrite (movValueNode n src) (movValue n src) dst

/-- Rust ExecutionNode::add. In Read mode the buffered value is added but
the read buffer is not cleared (as in the source); a port source outside
Read mode is the unreachable arm. -/
def ExecutionNode.add (n : ExecutionNode) (src : Src) : Except Fault ExecutionNode :=
  match n.mode with
  | .read =>
    match n.port_read_buffer with
    | some v => .ok { n with acc := satAdd n.acc v, mode := .run }
    | none => .ok n
  | _ =>
    match src with
    | .register .acc => .ok { n with acc := satAdd n.acc n.acc }
    | .register .nil => .ok n
    | .literal v => .ok { n with acc := satAdd n.acc v }
    | .port _ => .error .unreachableCode

/-- Rust ExecutionNode::swp. -/
def ExecutionNode.swp (n : ExecutionNode) : ExecutionNode :=
  { n with acc := n.bak, bak := n.acc }

/-- Rust ExecutionNode::sav. -/
def ExecutionNode.sav (n : ExecutionNode) : ExecutionNode :=
  { n with bak := n.acc }

/-- Rust ExecutionNode::neg: acc := -acc with no saturation. Negating
-32768 overflows i16 (a panic in debug builds, a wrap in release builds,
in neither case 32767); it is modelled as a fault. -/
def ExecutionNode.neg (n : ExecutionNode) : Except Fault ExecutionNode :=
  if n.acc = I16_MIN then .error .overflow
  else .ok { n with acc := -n.acc }

/-- The instruction dispatch of Rust ExecutionNode::step. The match has
no arm for Sub or for the jump instructions or Hcf, so those fall to the
unimplemented macro. -/
def stepDispatch (n : ExecutionNode) (instruction : Instruction) :
    Except Fault ExecutionNode :=
  match instruction with
  | .mov s d => n.mov s d
  | .add s => n.add s
  | .sav => .ok n.sav
  | .swp => .ok n.swp
  | .neg => n.neg
  | _ => .error .unimplementedCode

/-- The pointer-advance check at the end of Rust ExecutionNode::step:
only a node left in Run mode advances its instruction pointer. -/
def stepAdvance (r : Except Fault ExecutionNode) : Except Fault ExecutionNode :=
  match r with
  | .error e => .error e
  | .ok n1 =>
    match n1.mode with
    | .run => .ok n1.increment_instruction_pointer
    | _ => .ok n1

/-- Rust ExecutionNode::step (Phase C). An empty current instruction
returns before the pointer-advance check. -/
def ExecutionNode.step (n : ExecutionNode) : Except Fault ExecutionNode :=
  match n.current_instruction with
  | none => .ok n
  | some instruction => stepAdvance (stepDispatch n instruction)

/-- Rust static NODE_LUT: (left, up, right, down) neighbor node indices. -/
def NODE_LUT : List (Option Nat × Option Nat × Option Nat × Option Nat) :=
  [ (none, none, some 1, some 4),
    (some 0, none, some 2, some 5),
    (some 1, none, some 3, some 6),
    (some 2, none, none, some 7),
    (none, some 0, some 5, some 8),
    (some 4, some 1, some 6, some 9),
    (some 5, some 2, some 7, some 10),
    (some 6, some 3, none, some 11),
    (none, some 4, some 9, none),
    (some 8, some 5, some 10, none),
    (some 9, some 6, some 11, none),
    (some 10, some 7, none, none) ]

/-- Rust static PORT_LUT: (left, up, right, down) edge indices. -/
def PORT_LUT : List (Nat × Nat × Nat × Nat) :=
  [ (4, 0, 5, 9),
    (5, 1, 6, 10),
    (6, 2, 7, 11),
    (7, 3, 8, 12),
    (13, 9, 14, 18),
    (14, 10, 15, 19),
    (15, 11, 16, 20),
    (16, 12, 17, 21),
    (22, 18, 23, 27),
    (23, 19, 24, 28),
    (24, 20, 25, 29),
    (25, 21, 26, 30) ]

/-- Rust free function map_port: (direction, node index) to edge index.
The Any direction hits the unimplemented macro. -/
def map_port (direction : TruePort) (i : Nat) : Except Fault Nat :=
  match PORT_LUT.get? i with
  | none => .error .indexOutOfBounds
  | some (l, u, r, d) =>
    match direction with
    | .left => .ok l
    | .up => .ok u
    | .right => .ok r
    | .down => .ok d
    | .any => .error .unimplementedCode

/-- Rust free function reverse_map_node: (direction, node index) to the
neighbor node index, if any. -/
def reverse_map_node (direction : TruePort) (i : Nat) : Except Fault (Option Nat) :=
  match NODE_LUT.get? i with
  | none => .error .indexOutOfBounds
  | some (l, u, r, d) =>
    match direction with
    | .left => .ok l
    | .up => .ok u
    | .right => .ok r
    | .down => .ok d
    | .any => .error .unimplementedCode

/-- Rust struct ExecutionPlane. nodes has length 12, ports and
queued_writes length 31, instructions length 12 * 21 = 252. -/
structure ExecutionPlane where
  nodes : List ExecutionNode
  ports : List (Option Int)
  queued_writes : List (Option Int)
  clear_writes : List Nat
  instructions : List (Option Instruction)
  deriving DecidableEq, Repr

/-- Rust ExecutionPlane::new. -/
def ExecutionPlane.new : ExecutionPlane :=
  { nodes := List.replicate NODES_PER_PLANE ExecutionNode.new
    ports := List.replicate 31 none
    queued_writes := List.replicate 31 none
    clear_writes := []
    instructions := List.replicate (NODES_PER_PLANE * INSTRUCTIONS_PER_NODE) none }

/-- The chunk of the instruction store belonging to node i (the
chunks_exact slice in the Rust step loop). -/
def nodeProg (p : ExecutionPlane) (i : Nat) : List (Option Instruction) :=
  (p.instructions.drop (i * INSTRUCTIONS_PER_NODE)).take INSTRUCTIONS_PER_NODE

/-- Storing one instruction slot, as the tests do through
get_node_instructions_mut followed by a slot assignment. -/
def loadInstruction (p : ExecutionPlane) (node slot : Nat) (ins : Instruction) :
    ExecutionPlane :=
  { p with instructions :=
      p.instructions.set (node * INSTRUCTIONS_PER_NODE + slot) (some ins) }

/-- The mailbox take for a node in Read mode, the middle of the per-node
loop body in Rust ExecutionPlane::step: if the mailbox at the edge in the
read direction holds a value, move it into the read buffer, empty the
mailbox, and record the neighbor node index (if any) for the later
writer-unblock sweep. Mailbox indexing out of range is the Rust index
panic. -/
def deliverRead (p : ExecutionPlane) (i : Nat) (node2 : ExecutionNode) :
    Except Fault (ExecutionNode × List (Option Int) × List Nat) :=
  match node2.mode with
  | .read =>
    match node2.direction with
    | some d =>
      match map_port d i with
      | .error e => .error e
      | .ok e =>
        match p.ports.get? e with
        | none => .error .indexOutOfBounds
        | some (some v) =>
          match reverse_map_node d i with
          | .error er => .error er
          | .ok (some j) =>
            .ok ({ node2 with port_read_buffer := some v }, p.ports.set e none,
                 p.clear_writes ++ [j])
          | .ok none =>
            .ok ({ node2 with port_read_buffer := some v }, p.ports.set e none,
                 p.clear_writes)
        | some none => .ok (node2, p.ports, p.clear_writes)
    | none => .ok (node2, p.ports, p.clear_writes)
  | _ => .ok (node2, p.ports, p.clear_writes)

/-- The write queueing at the end of the per-node loop body in Rust
ExecutionPlane::step: a node ending in Write with a full write buffer has
the buffered value moved into the queued-writes slot for its edge (the
buffer is emptied); the scheduler-local queue, not the mailbox, receives
the value. Queue indexing out of range is the Rust index panic. -/
def queueWrite (p : ExecutionPlane) (i : Nat) (node4 : ExecutionNode)
    (ports1 : List (Option Int)) (clears1 : List Nat) : Except Fault ExecutionPlane :=
  match node4.mode with
  | .write =>
    match node4.direction with
    | some d =>
      match node4.port_write_buffer with
      | some v =>
        match map_port d i with
        | .error e => .error e
        | .ok e =>
          match p.queued_writes.get? e with
          | none => .error .indexOutOfBounds
          | some _ =>
            .ok { p with
                  nodes := p.nodes.set i { node4 with port_write_buffer := none }
                  ports := ports1
                  queued_writes := p.queued_writes.set e (some v)
                  clear_writes := clears1 }
      | none =>
        .ok { p with
              nodes := p.nodes.set i node4
              ports := ports1
              clear_writes := clears1 }
    | none =>
      .ok { p with
            nodes := p.nodes.set i node4
            ports := ports1
            clear_writes := clears1 }
  | _ =>
    .ok { p with
          nodes := p.nodes.set i node4
          ports := ports1
          clear_writes := clears1 }

/-- One iteration of the per-node loop in Rust ExecutionPlane::step:
fetch, pre-read, mailbox take on a pending read (remembering the writer
to unblock), Phase C step, then queueing of a pending write. -/
def visitNode (p : ExecutionPlane) (i : Nat) : Except Fault ExecutionPlane :=
  match p.nodes.get? i with
  | none => .error .indexOutOfBounds
  | some node0 =>
    match node0.fetch (nodeProg p i) with
    | .error e => .error e
    | .ok node1 =>
      match node1.read_step with
      | .error e => .error e
      | .ok node2 =>
        match deliverRead p i node2 with
        | .error e => .error e
        | .ok (node3, ports1, clears1) =>
          match node3.step with
          | .error e => .error e
          | .ok node4 => queueWrite p i node4 ports1 clears1

/-- The per-node loop of Rust ExecutionPlane::step over a list of node
indices, in order. -/
def visitNodes (p : ExecutionPlane) : List Nat → Except Fault ExecutionPlane
  | [] => .ok p
  | i :: rest =>
    match visitNode p i with
    | .error e => .error e
    | .ok p1 => visitNodes p1 rest

/-- The end-of-cycle write flush of Rust ExecutionPlane::step, walking
ports and queued_writes in lockstep by index: a queued write onto an
occupied mailbox is the write-deadlock panic. -/
def flushWrites : List (Option Int) → List (Option Int) →
    Except Fault (List (Option Int) × List (Option Int))
  | [], [] => .ok ([], [])
  | p :: ps, none :: qs =>
    match flushWrites ps qs with
    | .error e => .error e
    | .ok (ps1, qs1) => .ok (p :: ps1, none :: qs1)
  | p :: ps, some v :: qs =>
    match p with
    | some _ => .error .writeDeadlock
    | none =>
      match flushWrites ps qs with
      | .error e => .error e
      | .ok (ps1, qs1) => .ok (some v :: ps1, none :: qs1)
  | _, _ => .error .indexOutOfBounds

/-- The end-of-cycle writer-unblock sweep of Rust ExecutionPlane::step:
resolve_write on every node index recorded in clear_writes, in order. -/
def applyClearWrites (nodes : List ExecutionNode) : List Nat →
    Except Fault (List ExecutionNode)
  | [] => .ok nodes
  | j :: rest =>
    match nodes.get? j with
    | none => .error .indexOutOfBounds
    | some nd => applyClearWrites (nodes.set j nd.resolve_write) rest

/-- Rust ExecutionPlane::step (the Plane trait step): visit all twelve
nodes in index order, then flush the queued writes into the mailboxes,
then unblock the recorded writers and clear the list. -/
def ExecutionPlane.step (p : ExecutionPlane) : Except Fault ExecutionPlane :=
  match visitNodes p (List.range NODES_PER_PLANE) with
  | .error e => .error e
  | .ok p1 =>
    match flushWrites p1.ports p1.queued_writes with
    | .error e => .error e
    | .ok (ports1, queued1) =>
      match applyClearWrites p1.nodes p1.clear_writes with
      | .error e => .error e
      | .ok nodes1 =>
        .ok { p1 with
              nodes := nodes1
              ports := ports1
              queued_writes := queued1
              clear_writes := [] }

/-- Iterated plane stepping (k successive cycles). -/
def stepN (p : ExecutionPlane) : Nat → Except Fault ExecutionPlane
  | 0 => .ok p
  | k + 1 =>
    match p.step with
    | .error e => .error e
    | .ok q => stepN q k

/-- Unpacking helper for concrete executions. -/
def getOk {α : Type} (r : Except Fault α) (d : α) : α :=
  match r with
  | .ok q => q
  | .error _ => d

/-- Observer: the accumulator of node i of a step result. -/
def accOf (r : Except Fault ExecutionPlane) (i : Nat) : Option Int :=
  match r with
  | .error _ => none
  | .ok q => (q.nodes.get? i).map ExecutionNode.acc

/-- Observer: the instruction pointer of node i of a step result. -/
def ipOf (r : Except Fault ExecutionPlane) (i : Nat) : Option Nat :=
  match r with
  | .error _ => none
  | .ok q => (q.nodes.get? i).map ExecutionNode.instruction_pointer

/-- Observer: the mode of node i of a step result. -/
def modeOf (r : Except Fault ExecutionPlane) (i : Nat) : Option Mode :=
  match r with
  | .error _ => none
  | .ok q => (q.nodes.get? i).map ExecutionNode.mode

/-- Observer: the port read buffer of node i of a step result. -/
def rbOf (r : Except Fault ExecutionPlane) (i : Nat) : Option (Option Int) :=
  match r with
  | .error _ => none
  | .ok q => (q.nodes.get? i).map ExecutionNode.port_read_buffer

/-- Scenario: node 0 and node 1 both write to their shared edge 5 in the
same cycle (two writers, no reader between them). -/
def writeBothPlane : ExecutionPlane :=
  loadInstruction (loadInstruction ExecutionPlane.new
    0 0 (.mov (.literal 1) (.port (.direct .right))))
    1 0 (.mov (.literal 2) (.port (.direct .left)))

/-- The state reached after one cycle of writeBothPlane. -/
def writeBothPlane1 : ExecutionPlane :=
  getOk writeBothPlane.step ExecutionPlane.new

/-- Scenario: node 0 writes to edge 5 in cycle 1 and node 1 writes to the
same edge in cycle 2, with no reader between them. -/
def writeSeqPlane : ExecutionPlane :=
  loadInstruction (loadInstruction (loadInstruction ExecutionPlane.new
    0 0 (.mov (.literal 1) (.port (.direct .right))))
    1 0 .sav)
    1 1 (.mov (.literal 2) (.port (.direct .left)))

/-- The state reached after one cycle of writeSeqPlane. -/
def writeSeqPlane1 : ExecutionPlane :=
  getOk writeSeqPlane.step ExecutionPlane.new

/-- The state of writeSeqPlane1 after the per-node visiting loop of its
second cycle, just before the write flush. -/
def writeSeqVisited : ExecutionPlane :=
  getOk (visitNodes writeSeqPlane1 (List.range NODES_PER_PLANE)) ExecutionPlane.new

/-- A node in Read mode with a populated read buffer about to execute an
ADD with a port source. -/
def staleAddNode : ExecutionNode :=
  { ExecutionNode.new with
    mode := .read
    port_read_buffer := some 5
    current_instruction := some (.add (.port (.direct .right))) }

/-- A node with a populated read buffer about to take it through a MOV
with a port source. -/
def staleMovNode : ExecutionNode :=
  { ExecutionNode.new with
    mode := .read
    port_read_buffer := some 7
    current_instruction := some (.mov (.port (.direct .left)) (.register .acc)) }

/-- Scenario: node 0 runs ADD RIGHT twice while node 1 sends a single
5000 and then keeps busy with SAV; the second ADD RIGHT finds an empty
mailbox but a stale read buffer. -/
def staleReadPlane : ExecutionPlane :=
  loadInstruction (loadInstruction (loadInstruction (loadInstruction
    ExecutionPlane.new
    0 0 (.add (.port (.direct .right))))
    0 1 (.add (.port (.direct .right))))
    1 0 (.mov (.literal 5000) (.port (.direct .left))))
    1 1 .sav

/-- A node whose instruction pointer sits on an empty slot of a program
with a later non-empty slot. -/
def emptySlotNode : ExecutionNode :=
  { ExecutionNode.new with instruction_pointer := 1 }

/-- A three-slot program with an empty slot between two instructions. -/
def emptySlotProg : List (Option Instruction) :=
  [some (.add (.literal 5)), none, some (.add (.literal 7))]

/-- Scenario: node 0 holds ADD 5 at slot 0 and ADD 7 at slot 2 with slot
1 empty, so in cycle 2 the fetch lands on the empty slot 1. -/
def emptySlotPlane : ExecutionPlane :=
  loadInstruction (loadInstruction ExecutionPlane.new
    0 0 (.add (.literal 5)))
    0 2 (.add (.literal 7))

/-- A node about to execute SUB with a literal source. -/
def subLitNode : ExecutionNode :=
  { ExecutionNode.new with current_instruction := some (.sub (.literal 1)) }

/-- A node about to execute SUB with a register source. -/
def subRegNode : ExecutionNode :=
  { ExecutionNode.new with current_instruction := some (.sub (.register .acc)) }

/-- Scenario: node 0 holds a single SUB instruction. -/
def subPlane : ExecutionPlane :=
  loadInstruction ExecutionPlane.new 0 0 (.sub (.literal 1))

/-- A node whose accumulator holds the minimal i16 value. -/
def negMinNode : ExecutionNode :=
  { ExecutionNode.new with acc := I16_MIN }

/-- A node whose accumulator holds 5. -/
def negFiveNode : ExecutionNode :=
  { ExecutionNode.new with acc := 5 }

/-- Scenario: node 0 adds -32768 into acc and then executes NEG. -/
def negOverflowPlane : ExecutionPlane :=
  loadInstruction (loadInstruction ExecutionPlane.new
    0 0 (.add (.literal (-32768))))
    0 1 .neg

/-- Scenario: node 0 writes once, node 1 reads it once and then keeps
busy; in cycle 4 the fetch of node 0 lands on an empty slot, resets the
pointer to 0 and relatches the port write, which then stalls in Write. -/
def fetchResetPlane : ExecutionPlane :=
  loadInstruction (loadInstruction (loadInstruction (loadInstruction (loadInstruction
    ExecutionPlane.new
    0 0 (.mov (.literal 1) (.port (.direct .right))))
    0 1 (.add (.literal 1)))
    1 0 (.mov (.port (.direct .left)) (.register .acc)))
    1 1 .sav)
    1 2 .sav

/-- Scenario: the generic read_add round trip, node 0 runs ADD RIGHT and
node 1 runs MOV v to LEFT. -/
def readAddPlane (v : Int) : ExecutionPlane :=
  loadInstruction (loadInstruction ExecutionPlane.new
    0 0 (.add (.port (.direct .right))))
    1 0 (.mov (.literal v) (.port (.direct .left)))

/-- Scenario: node 0 uses LAST as a source before any port access. -/
def lastSrcPlane : ExecutionPlane :=
  loadInstruction ExecutionPlane.new 0 0 (.add (.port .last))

/-- Scenario: node 0 uses LAST as a destination before any port access. -/
def lastDstPlane : ExecutionPlane :=
  loadInstruction ExecutionPlane.new 0 0 (.mov (.literal 1) (.port .last))

/-- A node whose last_port is set to Up. -/
def lastSetNode : ExecutionNode :=
  { ExecutionNode.new with last_port := some .up }

/-- Scenario from the Rust basic_add test, for the C7 witness. -/
def basicAddPlane : ExecutionPlane :=
  loadInstruction (loadInstruction ExecutionPlane.new
    0 0 (.add (.literal 42)))
    0 1 (.add (.register .acc))

/-- The invariant of claim C7: every node instruction pointer lies below
INSTRUCTIONS_PER_NODE. -/
def ipInv (p : ExecutionPlane) : Prop :=
  ∀ n ∈ p.nodes, n.instruction_pointer < INSTRUCTIONS_PER_NODE

/-- A node about to publish the literal 3 to its right port. -/
def movWriteNode : ExecutionNode :=
  { ExecutionNode.new with
    current_instruction := some (.mov (.literal 3) (.port (.direct .right))) }

/-- The node movWriteNode after one Phase C step (stalled in Write). -/
def movWriteNode1 : ExecutionNode :=
  getOk movWriteNode.step ExecutionNode.new

/-- A node in Read mode holding 5000 in its read buffer. -/
def readBufNode : ExecutionNode :=
  { ExecutionNode.new with mode := .read, port_read_buffer := some 5000 }

end TIS

namespace TIS

/-- Reading a set list: either the entry is unchanged or it is the
written value at the written index. -/
theorem list_get?_set_cases {α : Type} (l : List α) (i : Nat) (a : α) (j : Nat) :
    (l.set i a).get? j = l.get? j ∨ ((l.set i a).get? j = some a ∧ j = i) := by
  induction l generalizing i j with
  | nil => left; rfl
  | cons x t ih =>
    cases i with
    | zero =>
      cases j with
      | zero => right; exact ⟨rfl, rfl⟩
      | succ j1 => left; rfl
    | succ i1 =>
      cases j with
      | zero => left; rfl
      | succ j1 =>
        rcases ih i1 j1 with h | ⟨h1, h2⟩
        · left; exact h
        · right; exact ⟨h1, by omega⟩

/-- A successful indexed read witnesses that the index is in range. -/
theorem list_get?_some_lt {α : Type} {l : List α} {i : Nat} {x : α}
    (h : l.get? i = some x) : i < l.length := by
  by_contra hc
  rw [List.get?_eq_none.mpr (by omega)] at h
  cases h

/-- Reading a set list at the written in-range index yields the value. -/
theorem list_get?_set_self {α : Type} {l : List α} {i : Nat} (a : α)
    (h : i < l.length) : (l.set i a).get? i = some a := by
  induction l generalizing i with
  | nil => simp at h
  | cons x t ih =>
    cases i with
    | zero => rfl
    | succ i1 => exact ih (by simpa using h)

/-- Membership in a set list comes from the written value or the
original list. -/
theorem list_mem_set_cases {α : Type} {l : List α} {i : Nat} {a x : α}
    (h : x ∈ l.set i a) : x = a ∨ x ∈ l := by
  induction l generalizing i with
  | nil => simp at h
  | cons y t ih =>
    cases i with
    | zero =>
      rcases List.mem_cons.mp h with h1 | h1
      · left; exact h1
      · right; exact List.mem_cons_of_mem _ h1
    | succ i1 =>
      rcases List.mem_cons.mp h with h1 | h1
      · right; exact h1 ▸ List.mem_cons_self _ _
      · rcases ih h1 with h2 | h2
        · left; exact h2
        · right; exact List.mem_cons_of_mem _ h2

/-- Fetch preserves the registers, buffers and mode, and leaves the
instruction pointer inside the program. -/
theorem fetch_ok_inv {n n1 : ExecutionNode} {prog : List (Option Instruction)}
    (h : n.fetch prog = .ok n1) :
    n1.acc = n.acc ∧ n1.port_read_buffer = n.port_read_buffer ∧
      n1.mode = n.mode ∧ n1.instruction_pointer < prog.length := by
  unfold ExecutionNode.fetch at h
  split at h
  · cases h
  · next heq =>
    cases h
    exact ⟨rfl, rfl, rfl, list_get?_some_lt heq⟩
  · split at h
    · cases h
    · next heq =>
      cases h
      exact ⟨rfl, rfl, rfl, list_get?_some_lt heq⟩

/-- The pre-read phase never touches the instruction pointer, the read
buffer or the accumulator. -/
theorem read_step_ok_inv {n n1 : ExecutionNode} (h : n.read_step = .ok n1) :
    n1.instruction_pointer = n.instruction_pointer ∧
      n1.port_read_buffer = n.port_read_buffer ∧ n1.acc = n.acc := by
  unfold ExecutionNode.read_step at h
  repeat' split at h
  all_goals cases h
  all_goals exact ⟨rfl, rfl, rfl⟩

/-- The source stage of mov never touches the instruction pointer or the
read buffer. -/
theorem movValueNode_inv (n : ExecutionNode) (s : Src) :
    (movValueNode n s).instruction_pointer = n.instruction_pointer ∧
      (movValueNode n s).port_read_buffer = n.port_read_buffer := by
  unfold movValueNode
  repeat' split
  all_goals exact ⟨rfl, rfl⟩

/-- The destination stage of mov never touches the instruction pointer
or the read buffer. -/
theorem movWrite_inv {n1 n2 : ExecutionNode} {value : Option Int} {d : Dst}
    (h : movWrite n1 value d = .ok n2) :
    n2.instruction_pointer = n1.instruction_pointer ∧
      n2.port_read_buffer = n1.port_read_buffer := by
  unfold movWrite at h
  repeat' split at h
  all_goals cases h
  all_goals exact ⟨rfl, rfl⟩

/-- MOV never touches the instruction pointer or the read buffer. -/
theorem mov_ok_inv {n n1 : ExecutionNode} {s : Src} {d : Dst}
    (h : n.mov s d = .ok n1) :
    n1.instruction_pointer = n.instruction_pointer ∧
      n1.port_read_buffer = n.port_read_buffer := by
  unfold ExecutionNode.mov at h
  have h1 := movWrite_inv h
  have h2 := movValueNode_inv n s
  exact ⟨h1.1.trans h2.1, h1.2.trans h2.2⟩

/-- ADD never touches the instruction pointer or the read buffer. -/
theorem add_ok_inv {n n1 : ExecutionNode} {s : Src} (h : n.add s = .ok n1) :
    n1.instruction_pointer = n.instruction_pointer ∧
      n1.port_read_buffer = n.port_read_buffer := by
  unfold ExecutionNode.add at h
  repeat' split at h
  all_goals cases h
  all_goals exact ⟨rfl, rfl⟩

/-- NEG never touches the instruction pointer or the read buffer. -/
theorem neg_ok_inv {n n1 : ExecutionNode} (h : n.neg = .ok n1) :
    n1.instruction_pointer = n.instruction_pointer ∧
      n1.port_read_buffer = n.port_read_buffer := by
  unfold ExecutionNode.neg at h
  split at h
  · cases h
  · cases h; exact ⟨rfl, rfl⟩

/-- The wrapped pointer increment always lands below the program size. -/
theorem increment_ip_lt (n : ExecutionNode) :
    n.increment_instruction_pointer.instruction_pointer < INSTRUCTIONS_PER_NODE := by
  unfold ExecutionNode.increment_instruction_pointer
  split
  · next h => show 0 < INSTRUCTIONS_PER_NODE; decide
  · next h => show n.instruction_pointer + 1 < INSTRUCTIONS_PER_NODE; omega

/-- The wrapped pointer increment changes nothing but the pointer. -/
theorem increment_frame (n : ExecutionNode) :
    n.increment_instruction_pointer.mode = n.mode ∧
      n.increment_instruction_pointer.port_read_buffer = n.port_read_buffer := by
  unfold ExecutionNode.increment_instruction_pointer
  split
  all_goals exact ⟨rfl, rfl⟩

/-- The instruction dispatch of Phase C never touches the instruction
pointer or the read buffer. -/
theorem stepDispatch_inv {n n1 : ExecutionNode} {i : Instruction}
    (h : stepDispatch n i = .ok n1) :
    n1.instruction_pointer = n.instruction_pointer ∧
      n1.port_read_buffer = n.port_read_buffer := by
  unfold stepDispatch at h
  split at h
  · exact mov_ok_inv h
  · exact add_ok_inv h
  · cases h; exact ⟨rfl, rfl⟩
  · cases h; exact ⟨rfl, rfl⟩
  · exact neg_ok_inv h
  · cases h

/-- Phase C preserves the read buffer, and either leaves the pointer
unchanged (the node stalled in Read or Write) or advances it within
bounds with the node left in Run. -/
theorem step_ok_inv {n n1 : ExecutionNode} (h : n.step = .ok n1) :
    n1.port_read_buffer = n.port_read_buffer ∧
      (n1.instruction_pointer = n.instruction_pointer ∨
        (n1.instruction_pointer < INSTRUCTIONS_PER_NODE ∧ n1.mode = .run)) := by
  unfold ExecutionNode.step at h
  split at h
  · cases h; exact ⟨rfl, Or.inl rfl⟩
  · unfold stepAdvance at h
    split at h
    · cases h
    · next n2 hd =>
      split at h
      · next hm =>
        cases h
        refine ⟨(increment_frame n2).2.trans (stepDispatch_inv hd).2,
          Or.inr ⟨increment_ip_lt n2, ?_⟩⟩
        exact (increment_frame n2).1.trans hm
      · cases h
        exact ⟨(stepDispatch_inv hd).2, Or.inl (stepDispatch_inv hd).1⟩

end TIS

namespace TIS

/-- Emptying one slot of the mailbox array leaves every entry unchanged
or empty. -/
theorem ports_set_none (l : List (Option Int)) (e0 e1 : Nat) :
    (l.set e0 none).get? e1 = l.get? e1 ∨ (l.set e0 none).get? e1 = some none := by
  rcases list_get?_set_cases l e0 none e1 with hc | ⟨hc, _⟩
  · left; exact hc
  · right; exact hc

/-- The mailbox take never adds a value to any mailbox, only empties one;
a newly delivered read buffer value comes from an entry mailbox; and the
node is otherwise untouched. -/
theorem deliverRead_inv {p : ExecutionPlane} {i : Nat} {n2 n3 : ExecutionNode}
    {ports1 : List (Option Int)} {cl1 : List Nat}
    (h : deliverRead p i n2 = .ok (n3, ports1, cl1)) :
    (∀ e, ports1.get? e = p.ports.get? e ∨ ports1.get? e = some none) ∧
      (n3.port_read_buffer = n2.port_read_buffer ∨
        ∃ e v, n3.port_read_buffer = some v ∧ p.ports.get? e = some (some v)) ∧
      n3.instruction_pointer = n2.instruction_pointer ∧ n3.mode = n2.mode := by
  unfold deliverRead at h
  repeat' split at h
  all_goals cases h
  all_goals refine ⟨fun e1 => ?_, ?_, rfl, rfl⟩
  all_goals try exact Or.inl rfl
  all_goals try exact ports_set_none _ _ _
  all_goals exact Or.inr ⟨_, _, rfl, by assumption⟩

end TIS

namespace TIS

/-- The write queueing stage installs the visited node (with its write
buffer possibly emptied into the queue), passes the ports through, and
never touches the mailboxes. -/
theorem queueWrite_ok {p : ExecutionPlane} {i : Nat} {n4 : ExecutionNode}
    {ports1 : List (Option Int)} {cl1 : List Nat} {q : ExecutionPlane}
    (h : queueWrite p i n4 ports1 cl1 = .ok q) :
    q.ports = ports1 ∧
      (q.nodes = p.nodes.set i n4 ∨
        q.nodes = p.nodes.set i { n4 with port_write_buffer := none }) := by
  unfold queueWrite at h
  repeat' split at h
  all_goals cases h
  all_goals first
    | exact ⟨rfl, Or.inl rfl⟩
    | exact ⟨rfl, Or.inr rfl⟩

/-- A write queued onto an already occupied mailbox makes the flush
fault with a write deadlock, whatever else the two arrays hold. -/
theorem flush_conflict (ports queued : List (Option Int)) (e : Nat) (v w : Int)
    (hlen : ports.length = queued.length)
    (hq : queued.get? e = some (some v)) (hp : ports.get? e = some (some w)) :
    flushWrites ports queued = .error .writeDeadlock := by
  induction ports generalizing queued e with
  | nil => cases hp
  | cons p0 ps ih =>
    cases queued with
    | nil => cases hq
    | cons q0 qs =>
      cases e with
      | zero =>
        cases hq; cases hp
        rfl
      | succ e1 =>
        have hrec := ih qs e1 (by simpa using hlen) hq hp
        cases q0 with
        | none => unfold flushWrites; rw [hrec]
        | some u =>
          cases p0 with
          | some w0 => rfl
          | none => unfold flushWrites; rw [hrec]

/-- The flush moves every queued value unchanged into the mailbox at the
same edge. -/
theorem flush_moves_value {ports queued ports1 queued1 : List (Option Int)}
    {e : Nat} {v : Int}
    (h : flushWrites ports queued = .ok (ports1, queued1))
    (hq : queued.get? e = some (some v)) : ports1.get? e = some (some v) := by
  induction ports generalizing queued ports1 queued1 e with
  | nil =>
    cases queued with
    | nil => cases hq
    | cons q0 qs => cases h
  | cons p0 ps ih =>
    cases queued with
    | nil => cases h
    | cons q0 qs =>
      cases q0 with
      | none =>
        cases e with
        | zero => cases hq
        | succ e1 =>
          have hq1 : qs.get? e1 = some (some v) := hq
          unfold flushWrites at h
          cases hfl : flushWrites ps qs with
          | error er => rw [hfl] at h; cases h
          | ok pr =>
            obtain ⟨ps1, qs1⟩ := pr
            rw [hfl] at h
            cases h
            show ps1.get? e1 = some (some v)
            exact ih hfl hq1
      | some u =>
        cases p0 with
        | some w0 => cases h
        | none =>
          unfold flushWrites at h
          cases hfl : flushWrites ps qs with
          | error er => rw [hfl] at h; cases h
          | ok pr =>
            obtain ⟨ps1, qs1⟩ := pr
            rw [hfl] at h
            cases h
            cases e with
            | zero => cases hq; rfl
            | succ e1 =>
              have hq1 : qs.get? e1 = some (some v) := hq
              show ps1.get? e1 = some (some v)
              exact ih hfl hq1

/-- The writer-unblock sweep keeps every instruction pointer below the
program size. -/
theorem applyClearWrites_ip {nodes nodes1 : List ExecutionNode} {l : List Nat}
    (h : applyClearWrites nodes l = .ok nodes1)
    (hp : ∀ n ∈ nodes, n.instruction_pointer < INSTRUCTIONS_PER_NODE) :
    ∀ n ∈ nodes1, n.instruction_pointer < INSTRUCTIONS_PER_NODE := by
  induction l generalizing nodes with
  | nil => cases h; exact hp
  | cons j rest ih =>
    unfold applyClearWrites at h
    split at h
    · cases h
    · next nd hnd =>
      refine ih h ?_
      intro n hn
      rcases list_mem_set_cases hn with h1 | h1
      · rw [h1]; exact increment_ip_lt _
      · exact hp n h1

end TIS

namespace TIS

/-- An in-range index can be read. -/
theorem list_lt_get?_some {α : Type} {l : List α} {j : Nat} (h : j < l.length) :
    ∃ x, l.get? j = some x := by
  induction l generalizing j with
  | nil => simp at h
  | cons y t ih =>
    cases j with
    | zero => exact ⟨y, rfl⟩
    | succ j1 => exact ih (by simpa using h)

/-- A successful node visit decomposes into its five stages. -/
theorem visitNode_ok_elim {p q : ExecutionPlane} {i : Nat} (h : visitNode p i = .ok q) :
    ∃ node0 node1 node2 node3 ports1 cl1 node4,
      p.nodes.get? i = some node0 ∧
      node0.fetch (nodeProg p i) = .ok node1 ∧
      node1.read_step = .ok node2 ∧
      deliverRead p i node2 = .ok (node3, ports1, cl1) ∧
      node3.step = .ok node4 ∧
      queueWrite p i node4 ports1 cl1 = .ok q := by
  unfold visitNode at h
  cases hget : p.nodes.get? i with
  | none => simp only [hget] at h; cases h
  | some node0 =>
    simp only [hget] at h
    cases hfetch : node0.fetch (nodeProg p i) with
    | error er => simp only [hfetch] at h; cases h
    | ok node1 =>
      simp only [hfetch] at h
      cases hread : node1.read_step with
      | error er => simp only [hread] at h; cases h
      | ok node2 =>
        simp only [hread] at h
        cases hdel : deliverRead p i node2 with
        | error er => simp only [hdel] at h; cases h
        | ok trip =>
          obtain ⟨node3, ports1, cl1⟩ := trip
          simp only [hdel] at h
          cases hstep : node3.step with
          | error er => simp only [hstep] at h; cases h
          | ok node4 =>
            simp only [hstep] at h
            exact ⟨node0, node1, node2, node3, ports1, cl1, node4,
              rfl, hfetch, hread, hdel, hstep, h⟩

/-- One node visit never adds a mailbox value, changes a read buffer
only to a value taken from an entry mailbox, and preserves the node
count. -/
theorem visitNode_frame {p q : ExecutionPlane} {i : Nat} (h : visitNode p i = .ok q) :
    (∀ e, q.ports.get? e = p.ports.get? e ∨ q.ports.get? e = some none) ∧
      (∀ j nq np, q.nodes.get? j = some nq → p.nodes.get? j = some np →
        nq.port_read_buffer = np.port_read_buffer ∨
          ∃ e v, nq.port_read_buffer = some v ∧ p.ports.get? e = some (some v)) ∧
      q.nodes.length = p.nodes.length := by
  obtain ⟨n0, n1, n2, n3, ports1, cl1, n4, hget, hfetch, hread, hdel, hstep, hq⟩ :=
    visitNode_ok_elim h
  obtain ⟨hports, hnodes⟩ := queueWrite_ok hq
  obtain ⟨hdports, hdrb, hdip, hdmode⟩ := deliverRead_inv hdel
  have hrb21 : n2.port_read_buffer = n1.port_read_buffer := (read_step_ok_inv hread).2.1
  have hrb10 : n1.port_read_buffer = n0.port_read_buffer := (fetch_ok_inv hfetch).2.1
  have hrb43 : n4.port_read_buffer = n3.port_read_buffer := (step_ok_inv hstep).1
  refine ⟨?_, ?_, ?_⟩
  · intro e
    rw [hports]
    exact hdports e
  · intro j nq np hnq hnp
    have hxrb : ∀ X : ExecutionNode, X.port_read_buffer = n4.port_read_buffer →
        q.nodes = p.nodes.set i X →
        nq.port_read_buffer = np.port_read_buffer ∨
          ∃ e v, nq.port_read_buffer = some v ∧ p.ports.get? e = some (some v) := by
      intro X hX hqn
      rw [hqn] at hnq
      rcases list_get?_set_cases p.nodes i X j with hc | ⟨hc, hji⟩
      · rw [hc, hnp] at hnq
        cases hnq
        exact Or.inl rfl
      · rw [hc] at hnq
        cases hnq
        subst hji
        rw [hget] at hnp
        cases hnp
        rcases hdrb with h1 | ⟨e, v, h1, h2⟩
        · left
          rw [hX, hrb43, h1, hrb21, hrb10]
        · right
          exact ⟨e, v, by rw [hX, hrb43, h1], h2⟩
    rcases hnodes with hn | hn
    · exact hxrb n4 rfl hn
    · exact hxrb { n4 with port_write_buffer := none } rfl hn
  · rcases hnodes with hn | hn
    all_goals rw [hn]
    all_goals exact List.length_set _ _ _

end TIS

namespace TIS

/-- One node visit keeps every instruction pointer below the program
size. -/
theorem visitNode_ip {p q : ExecutionPlane} {i : Nat} (h : visitNode p i = .ok q)
    (hp : ipInv p) : ipInv q := by
  obtain ⟨n0, n1, n2, n3, ports1, cl1, n4, hget, hfetch, hread, hdel, hstep, hq⟩ :=
    visitNode_ok_elim h
  obtain ⟨_, hnodes⟩ := queueWrite_ok hq
  have h1 : n1.instruction_pointer < INSTRUCTIONS_PER_NODE := by
    have hlt := (fetch_ok_inv hfetch).2.2.2
    have hle : (nodeProg p i).length ≤ INSTRUCTIONS_PER_NODE := by
      unfold nodeProg
      rw [List.length_take]
      exact Nat.min_le_left _ _
    omega
  have h2 : n2.instruction_pointer = n1.instruction_pointer := (read_step_ok_inv hread).1
  have h3 : n3.instruction_pointer = n2.instruction_pointer := (deliverRead_inv hdel).2.2.1
  have h4 : n4.instruction_pointer < INSTRUCTIONS_PER_NODE := by
    rcases (step_ok_inv hstep).2 with he | ⟨hl, _⟩
    · omega
    · exact hl
  intro n hn
  rcases hnodes with hn4 | hn4
  all_goals rw [hn4] at hn
  all_goals rcases list_mem_set_cases hn with h5 | h5
  · rw [h5]; exact h4
  · exact hp n h5
  · rw [h5]; exact h4
  · exact hp n h5

/-- The whole visiting loop keeps every instruction pointer below the
program size. -/
theorem visitNodes_ip {p q : ExecutionPlane} {l : List Nat}
    (h : visitNodes p l = .ok q) (hp : ipInv p) : ipInv q := by
  induction l generalizing p with
  | nil => cases h; exact hp
  | cons i rest ih =>
    unfold visitNodes at h
    cases hv : visitNode p i with
    | error er => simp only [hv] at h; cases h
    | ok p1 =>
      simp only [hv] at h
      exact ih h (visitNode_ip hv hp)

/-- One whole plane cycle keeps every instruction pointer below the
program size. -/
theorem planeStep_ip {p q : ExecutionPlane} (h : p.step = .ok q) (hp : ipInv p) :
    ipInv q := by
  unfold ExecutionPlane.step at h
  cases hv : visitNodes p (List.range NODES_PER_PLANE) with
  | error er => simp only [hv] at h; cases h
  | ok p1 =>
    simp only [hv] at h
    cases hf : flushWrites p1.ports p1.queued_writes with
    | error er => simp only [hf] at h; cases h
    | ok pr =>
      obtain ⟨ports1, queued1⟩ := pr
      simp only [hf] at h
      cases hc : applyClearWrites p1.nodes p1.clear_writes with
      | error er => simp only [hc] at h; cases h
      | ok nodes1 =>
        simp only [hc] at h
        cases h
        intro n hn
        exact applyClearWrites_ip hc (visitNodes_ip hv hp) n hn

/-- Any number of cycles keeps every instruction pointer below the
program size. -/
theorem stepN_ip {p q : ExecutionPlane} {k : Nat} (h : stepN p k = .ok q)
    (hp : ipInv p) : ipInv q := by
  induction k generalizing p with
  | zero => cases h; exact hp
  | succ k1 ih =>
    unfold stepN at h
    cases hs : p.step with
    | error er => simp only [hs] at h; cases h
    | ok p1 =>
      simp only [hs] at h
      exact ih h (planeStep_ip hs hp)

end TIS

namespace TIS

/-- C1 (amended): if at the end-of-cycle write flush a queued write
targets an edge whose mailbox is already occupied, plane step faults
with the write-deadlock error; this is how two writers to the same edge
fault when their writes are queued in different cycles. Two writes
queued within the same cycle, however, overwrite each other in the
scheduler queue and do not fault (see the counterexample); a mailbox
still never holds more than one value. -/
theorem claim_C1_amended (p p1 : ExecutionPlane) (e : Nat) (v w : Int)
    (hv : visitNodes p (List.range NODES_PER_PLANE) = .ok p1)
    (hlen : p1.ports.length = p1.queued_writes.length)
    (hq : p1.queued_writes.get? e = some (some v))
    (hp : p1.ports.get? e = some (some w)) :
    ExecutionPlane.step p = .error .writeDeadlock := by
  unfold ExecutionPlane.step
  simp only [hv]
  rw [flush_conflict p1.ports p1.queued_writes e v w hlen hq hp]

/-- C1 witness: writeSeqPlane after its first cycle has node 0 holding
mailbox 5 full with value 1; in the second cycle node 1 queues value 2
onto the same edge, and the plane step faults with a write deadlock. -/
theorem claim_C1_witness :
    ExecutionPlane.step writeSeqPlane1 = .error .writeDeadlock :=
  claim_C1_amended writeSeqPlane1 writeSeqVisited 5 2 1 rfl rfl (by decide) (by decide)

/-- C1 counterexample: in writeBothPlane the two writer nodes 0 and 1
target the shared edge 5 in the same cycle with no reader between them,
yet the plane step does not fault: the first cycle succeeds, the value 1
queued by node 0 is silently overwritten by the value 2 of node 1, both
nodes stay stuck in Write, and the reached state is a fixed point of the
plane step, so no later cycle faults either. -/
theorem claim_C1_counterexample :
    ExecutionPlane.step writeBothPlane = .ok writeBothPlane1 ∧
    ExecutionPlane.step writeBothPlane1 = .ok writeBothPlane1 ∧
    writeBothPlane1.ports.get? 5 = some (some 2) ∧
    (writeBothPlane1.nodes.get? 0).map ExecutionNode.mode = some .write ∧
    (writeBothPlane1.nodes.get? 1).map ExecutionNode.mode = some .write :=
  ⟨rfl, rfl, by decide, by decide, by decide⟩

/-- C2 (code evidence): consuming a buffered port value does not clear
the read buffer. An ADD with a port source in Read mode adds the value
and returns to Run but leaves the buffer populated; a MOV with a port
source does the same; and in staleReadPlane the second ADD RIGHT of node
0 completes in cycle 3 from the stale buffer while the mailbox is empty,
yielding acc 10000 where the specified behavior would leave the node
stalled in Read with acc 5000. -/
theorem claim_C2_stale_read_buffer :
    ExecutionNode.add staleAddNode (.port (.direct .right)) =
      .ok { staleAddNode with acc := 5, mode := .run } ∧
    ({ staleAddNode with acc := 5, mode := .run } : ExecutionNode).port_read_buffer =
      some 5 ∧
    ExecutionNode.mov staleMovNode (.port (.direct .left)) (.register .acc) =
      .ok { staleMovNode with mode := .run, acc := 7 } ∧
    ({ staleMovNode with mode := .run, acc := 7 } : ExecutionNode).port_read_buffer =
      some 7 ∧
    accOf (stepN staleReadPlane 3) 0 = some 10000 ∧
    rbOf (stepN staleReadPlane 3) 0 = some (some 5000) ∧
    modeOf (stepN staleReadPlane 3) 0 = some .run :=
  ⟨rfl, rfl, rfl, rfl, by decide, by decide, by decide⟩

/-- C3 counterexample: a fetch landing on an empty slot resets the
instruction pointer to 0 and relatches slot 0, instead of advancing to
the next non-empty slot. With ADD 5 at slot 0, slot 1 empty and ADD 7 at
slot 2, the node re-executes ADD 5 in cycle 2 (acc 10, pointer back at
1); skipping to slot 2 would have executed ADD 7 (acc 12, pointer 3). -/
theorem claim_C3_counterexample :
    ExecutionNode.fetch emptySlotNode emptySlotProg =
      .ok { emptySlotNode with
            instruction_pointer := 0
            current_instruction := some (.add (.literal 5)) } ∧
    accOf (stepN emptySlotPlane 2) 0 = some 10 ∧
    ipOf (stepN emptySlotPlane 2) 0 = some 1 :=
  ⟨rfl, by decide, by decide⟩

/-- C3 (amended): in Phase A, a fetch whose slot is empty resets the
instruction pointer to 0 and latches the slot 0 entry (executing it that
same cycle if it is non-empty); a node whose latched instruction is
empty idles through Phases B and C with its state unchanged. -/
theorem claim_C3_amended :
    (∀ (n : ExecutionNode) (prog : List (Option Instruction)) (c : Option Instruction),
      prog.get? n.instruction_pointer = some none → prog.get? 0 = some c →
      n.fetch prog = .ok { n with instruction_pointer := 0, current_instruction := c }) ∧
    (∀ n : ExecutionNode, n.current_instruction = none →
      n.read_step = .ok n ∧ n.step = .ok n) := by
  constructor
  · intro n prog c h0 h1
    unfold ExecutionNode.fetch
    simp only [h0, h1]
  · intro n hc
    obtain ⟨a, b, ip, cur, rb, wb, dir, lp, mo⟩ := n
    replace hc : cur = none := hc
    subst hc
    cases mo
    all_goals exact ⟨rfl, rfl⟩

/-- C3 witness: the amended fetch rule applied to the concrete empty
slot program, and a blank node idling. -/
theorem claim_C3_witness :
    ExecutionNode.fetch emptySlotNode emptySlotProg =
      .ok { emptySlotNode with
            instruction_pointer := 0
            current_instruction := some (.add (.literal 5)) } ∧
    ExecutionNode.read_step ExecutionNode.new = .ok ExecutionNode.new ∧
    ExecutionNode.step ExecutionNode.new = .ok ExecutionNode.new :=
  ⟨claim_C3_amended.1 emptySlotNode emptySlotProg (some (.add (.literal 5))) rfl rfl,
    (claim_C3_amended.2 ExecutionNode.new rfl).1,
    (claim_C3_amended.2 ExecutionNode.new rfl).2⟩

/-- C4 (code evidence): the Phase C dispatch has no arm for SUB, so a
node executing SUB with a literal or register source hits the
unimplemented macro and the whole plane step aborts, rather than
performing a saturating subtraction. -/
theorem claim_C4_sub_unimplemented :
    ExecutionNode.step subLitNode = .error .unimplementedCode ∧
    ExecutionNode.step subRegNode = .error .unimplementedCode ∧
    ExecutionPlane.step subPlane = .error .unimplementedCode :=
  ⟨rfl, rfl, rfl⟩

end TIS

namespace TIS

/-- C5: within one plane cycle, the per-node visiting loop never makes a
mailbox value appear — every mailbox keeps its start-of-cycle value or
is emptied by a take — and any read buffer changed during the loop
received a value that was already present in some mailbox at the start
of the loop. Queued writes reach the mailboxes only in the flush that
ExecutionPlane.step runs after visitNodes has visited all twelve nodes,
so a node visited later in a cycle can never read a value written
earlier in that same cycle: a value placed in a mailbox in cycle C is
first readable in cycle C + 1. -/
theorem claim_C5_same_cycle_isolation (p : ExecutionPlane) (l : List Nat)
    (q : ExecutionPlane) (h : visitNodes p l = .ok q) :
    (∀ e, q.ports.get? e = p.ports.get? e ∨ q.ports.get? e = some none) ∧
      (∀ j nq np, q.nodes.get? j = some nq → p.nodes.get? j = some np →
        nq.port_read_buffer = np.port_read_buffer ∨
          ∃ e v, nq.port_read_buffer = some v ∧ p.ports.get? e = some (some v)) := by
  induction l generalizing p with
  | nil =>
    cases h
    refine ⟨fun e => Or.inl rfl, fun j nq np h1 h2 => ?_⟩
    rw [h1] at h2
    cases h2
    exact Or.inl rfl
  | cons i rest ih =>
    unfold visitNodes at h
    cases hv : visitNode p i with
    | error er => simp only [hv] at h; cases h
    | ok p1 =>
      simp only [hv] at h
      obtain ⟨hports1, hnodes1, hlen1⟩ := visitNode_frame hv
      obtain ⟨hportsq, hnodesq⟩ := ih p1 h
      constructor
      · intro e
        rcases hportsq e with h1 | h1
        · rcases hports1 e with h2 | h2
          · left; exact h1.trans h2
          · right; exact h1.trans h2
        · right; exact h1
      · intro j nq np hnq hnp
        have hj1 : j < p1.nodes.length := by
          rw [hlen1]
          exact list_get?_some_lt hnp
        obtain ⟨np1, hnp1⟩ := list_lt_get?_some hj1
        rcases hnodesq j nq np1 hnq hnp1 with h1 | ⟨e, v, h1, h2⟩
        · rcases hnodes1 j np1 np hnp1 hnp with h3 | ⟨e, v, h3, h4⟩
          · left; exact h1.trans h3
          · right; exact ⟨e, v, h1.trans h3, h4⟩
        · rcases hports1 e with h3 | h3
          · rw [h3] at h2
            right; exact ⟨e, v, h1, h2⟩
          · rw [h3] at h2
            exact Option.noConfusion (Option.some.inj h2)

/-- C5 witness: the isolation theorem applied to the second cycle of the
sequential two-writer scenario, at the edge 5 shared by nodes 0 and 1. -/
theorem claim_C5_witness :
    writeSeqVisited.ports.get? 5 = writeSeqPlane1.ports.get? 5 ∨
      writeSeqVisited.ports.get? 5 = some none :=
  (claim_C5_same_cycle_isolation writeSeqPlane1 (List.range NODES_PER_PLANE)
    writeSeqVisited rfl).1 5

/-- C6 counterexample: in fetchResetPlane node 0 starts cycle 4 with
instruction pointer 2, the fetch lands on the empty slot 2 and resets
the pointer to 0, the relatched port write stalls, and the node ends
cycle 4 in Write mode with pointer 0 — not the pointer 2 it started the
cycle with. -/
theorem claim_C6_counterexample :
    ipOf (stepN fetchResetPlane 3) 0 = some 2 ∧
    modeOf (stepN fetchResetPlane 4) 0 = some .write ∧
    ipOf (stepN fetchResetPlane 4) 0 = some 0 :=
  ⟨by decide, by decide, by decide⟩

/-- C6 (amended): after Phase A, the instruction pointer of a node that
ends the cycle in Read or Write is unchanged — the pre-read phase never
moves the pointer and the Phase C step moves it only when the node is
left in Run — and the writer-unblock of the scheduler advances the
pointer only while setting the node back to Run. Phase A itself may move
the pointer (an empty slot resets it to 0), which is the only way a
stalled node changes its pointer within a cycle. -/
theorem claim_C6_amended :
    (∀ n n1 : ExecutionNode, n.read_step = .ok n1 →
      n1.instruction_pointer = n.instruction_pointer) ∧
    (∀ n n1 : ExecutionNode, n.step = .ok n1 →
      n1.mode = .read ∨ n1.mode = .write →
      n1.instruction_pointer = n.instruction_pointer) ∧
    (∀ n : ExecutionNode, n.resolve_write.mode = .run) := by
  refine ⟨fun n n1 h => (read_step_ok_inv h).1, fun n n1 h hm => ?_, fun n => ?_⟩
  · rcases (step_ok_inv h).2 with he | ⟨_, hrun⟩
    · exact he
    · rcases hm with hm | hm
      all_goals rw [hm] at hrun
      all_goals cases hrun
  · exact (increment_frame { n with mode := .run }).1

/-- C6 witness: a node publishing a literal to a port ends its step in
Write with its pointer unchanged, and the writer-unblock leaves a node
in Run. -/
theorem claim_C6_witness :
    movWriteNode1.instruction_pointer = movWriteNode.instruction_pointer ∧
    ExecutionNode.new.resolve_write.mode = .run :=
  ⟨claim_C6_amended.2.1 movWriteNode movWriteNode1 rfl (Or.inr rfl),
    claim_C6_amended.2.2 ExecutionNode.new⟩

end TIS

namespace TIS

/-- C7: every instruction pointer lies in [0, INSTRUCTIONS_PER_NODE) —
it holds of the blank plane, is preserved by loading instructions, and
is preserved by any number of plane cycles: the wrapped increment, the
fetch handling of empty slots and the writer-unblock all keep the bound. -/
theorem claim_C7_ip_bound :
    ipInv ExecutionPlane.new ∧
    (∀ (p : ExecutionPlane) (node slot : Nat) (ins : Instruction),
      ipInv p → ipInv (loadInstruction p node slot ins)) ∧
    (∀ (p q : ExecutionPlane) (k : Nat), ipInv p → stepN p k = .ok q → ipInv q) := by
  refine ⟨?_, fun p a b c hp => hp, fun p q k hp h => stepN_ip h hp⟩
  intro n hn
  rw [List.eq_of_mem_replicate hn]
  decide

/-- C7 witness: the pointer bound after two cycles of the basic_add
program, read off at node 0. -/
theorem claim_C7_witness :
    ((getOk (stepN basicAddPlane 2) ExecutionPlane.new).nodes.getD 0
        ExecutionNode.new).instruction_pointer < INSTRUCTIONS_PER_NODE :=
  claim_C7_ip_bound.2.2 basicAddPlane
    (getOk (stepN basicAddPlane 2) ExecutionPlane.new) 2
    (claim_C7_ip_bound.2.1 _ 0 1 (.add (.register .acc))
      (claim_C7_ip_bound.2.1 _ 0 0 (.add (.literal 42)) claim_C7_ip_bound.1))
    rfl
    ((getOk (stepN basicAddPlane 2) ExecutionPlane.new).nodes.getD 0 ExecutionNode.new)
    (by decide)

/-- C8 counterexample: NEG on an accumulator holding -32768 does not
saturate to 32767; the negation overflows i16 and the node (and with it
the plane running ADD -32768 then NEG) faults. -/
theorem claim_C8_counterexample :
    ExecutionNode.neg negMinNode = .error .overflow ∧
    stepN negOverflowPlane 2 = .error .overflow :=
  ⟨rfl, rfl⟩

/-- C8 (amended): NEG negates the accumulator for every value other than
-32768 (in particular NEG of 0 leaves 0); at exactly -32768 the negation
overflows i16 and faults instead of saturating to 32767. -/
theorem claim_C8_amended (n : ExecutionNode) :
    (n.acc ≠ I16_MIN → n.neg = .ok { n with acc := -n.acc }) ∧
    (n.acc = I16_MIN → n.neg = .error .overflow) ∧
    (n.acc = 0 → n.neg = .ok n) := by
  refine ⟨fun h => ?_, fun h => ?_, fun h => ?_⟩
  · unfold ExecutionNode.neg
    rw [if_neg h]
  · unfold ExecutionNode.neg
    rw [if_pos h]
  · unfold ExecutionNode.neg
    rw [if_neg (by rw [h]; decide)]
    have hz : -n.acc = n.acc := by rw [h]; decide
    rw [hz]

/-- C8 witness: the amended rule at the accumulator values 5 and -32768. -/
theorem claim_C8_witness :
    ExecutionNode.neg negFiveNode = .ok { negFiveNode with acc := -negFiveNode.acc } ∧
    ExecutionNode.neg negMinNode = .error .overflow :=
  ⟨(claim_C8_amended negFiveNode).1 (by decide), (claim_C8_amended negMinNode).2.1 rfl⟩

/-- C9: the port transfer path is value-faithful end to end. Publishing
a literal v through MOV places exactly v in the write buffer; the write
queueing puts exactly the buffered v into the queued-writes slot of the
edge; the flush moves exactly the queued v into the mailbox; the mailbox
take delivers exactly v into the read buffer of the reader; an ADD (or a
MOV to ACC) consuming the buffer uses exactly v; and a saturating add of
an in-range v to 0 is v. On the concrete read_add scenario — node 0
running ADD RIGHT, node 1 running MOV 5000 to LEFT — node 0 holds acc
5000 after two cycles, with 5000 having arrived bit-identically in its
read buffer. -/
theorem claim_C9_round_trip :
    (∀ (n : ExecutionNode) (v : Int) (d : TruePort), n.mode ≠ .write →
      n.mov (.literal v) (.port (.direct d)) =
        .ok { n with
              mode := .write
              port_write_buffer := some v
              direction := some d
              last_port := some d }) ∧
    (∀ (p : ExecutionPlane) (i : Nat) (n4 : ExecutionNode)
        (ports1 : List (Option Int)) (cl1 : List Nat) (q : ExecutionPlane)
        (d : TruePort) (e : Nat) (v : Int),
      n4.mode = .write → n4.direction = some d → n4.port_write_buffer = some v →
      map_port d i = .ok e → queueWrite p i n4 ports1 cl1 = .ok q →
      q.queued_writes.get? e = some (some v)) ∧
    (∀ (ports queued ports1 queued1 : List (Option Int)) (e : Nat) (v : Int),
      flushWrites ports queued = .ok (ports1, queued1) →
      queued.get? e = some (some v) → ports1.get? e = some (some v)) ∧
    (∀ (p : ExecutionPlane) (i : Nat) (n2 n3 : ExecutionNode)
        (ports1 : List (Option Int)) (cl1 : List Nat) (d : TruePort) (e : Nat) (v : Int),
      n2.mode = .read → n2.direction = some d → map_port d i = .ok e →
      p.ports.get? e = some (some v) → deliverRead p i n2 = .ok (n3, ports1, cl1) →
      n3.port_read_buffer = some v) ∧
    (∀ (n : ExecutionNode) (s : Src) (v : Int), n.mode = .read →
      n.port_read_buffer = some v →
      n.add s = .ok { n with acc := satAdd n.acc v, mode := .run }) ∧
    (∀ (n : ExecutionNode) (p1 : Port) (v : Int), n.mode = .read →
      n.port_read_buffer = some v →
      n.mov (.port p1) (.register .acc) = .ok { n with mode := .run, acc := v }) ∧
    (∀ v : Int, I16_MIN ≤ v → v ≤ I16_MAX → satAdd 0 v = v) ∧
    accOf (stepN (readAddPlane 5000) 2) 0 = some 5000 ∧
    rbOf (stepN (readAddPlane 5000) 2) 0 = some (some 5000) := by
  refine ⟨?_, ?_, ?_, ?_, ?_, ?_, ?_, by decide, by decide⟩
  · intro n v d h
    unfold ExecutionNode.mov movValueNode movValue movWrite
    simp only [if_pos h]
    rfl
  · intro p i n4 ports1 cl1 q d e v hmode hdir hbuf hmap h
    unfold queueWrite at h
    simp only [hmode, hdir, hbuf, hmap] at h
    cases hq0 : p.queued_writes.get? e with
    | none => simp only [hq0] at h; cases h
    | some w0 =>
      simp only [hq0] at h
      cases h
      exact list_get?_set_self _ (list_get?_some_lt hq0)
  · exact fun ports queued ports1 queued1 e v h hq => flush_moves_value h hq
  · intro p i n2 n3 ports1 cl1 d e v hmode hdir hmap hport h
    unfold deliverRead at h
    simp only [hmode, hdir, hmap, hport] at h
    cases hrev : reverse_map_node d i with
    | error er => simp only [hrev] at h; cases h
    | ok j0 =>
      simp only [hrev] at h
      cases j0 with
      | none => cases h; rfl
      | some j => cases h; rfl
  · intro n s v hmode hbuf
    unfold ExecutionNode.add
    simp only [hmode, hbuf]
  · intro n p1 v hmode hbuf
    unfold ExecutionNode.mov movValueNode movValue movWrite
    simp only [hmode, hbuf]
    rfl
  · intro v h1 h2
    unfold I16_MIN at h1
    unfold I16_MAX at h2
    unfold satAdd I16_MIN I16_MAX
    rw [max_def, min_def]
    split_ifs
    all_goals omega

/-- C9 witness: the consume and saturation components at the concrete
value 5000 on a node holding it in its read buffer. -/
theorem claim_C9_witness :
    ExecutionNode.add readBufNode (.port (.direct .right)) =
      .ok { readBufNode with acc := satAdd readBufNode.acc 5000, mode := .run } ∧
    satAdd 0 5000 = 5000 :=
  ⟨claim_C9_round_trip.2.2.2.2.1 readBufNode (.port (.direct .right)) 5000 rfl rfl,
    claim_C9_round_trip.2.2.2.2.2.2.1 5000 (by decide) (by decide)⟩

/-- C10: resolving the LAST pseudo-direction unwraps last_port, so a
node that has never touched a port (last_port still none) faults the
whole plane step on its first LAST use, whether LAST appears as a source
or as a destination; and whenever last_port holds a cardinal direction
d, LAST resolves to exactly d. -/
theorem claim_C10_last_resolution :
    (∀ n : ExecutionNode, n.last_port = none →
      n.map_port .last = .error .unwrapNone) ∧
    (∀ (n : ExecutionNode) (d : TruePort), n.last_port = some d →
      n.map_port .last = .ok d) ∧
    ExecutionPlane.step lastSrcPlane = .error .unwrapNone ∧
    ExecutionPlane.step lastDstPlane = .error .unwrapNone := by
  refine ⟨fun n h => ?_, fun n d h => ?_, rfl, rfl⟩
  · unfold ExecutionNode.map_port
    simp only [h]
  · unfold ExecutionNode.map_port
    simp only [h]

/-- C10 witness: LAST resolution on a fresh node (faults) and on a node
whose last_port is Up (yields Up). -/
theorem claim_C10_witness :
    ExecutionNode.map_port ExecutionNode.new .last = .error .unwrapNone ∧
    ExecutionNode.map_port lastSetNode .last = .ok .up :=
  ⟨claim_C10_last_resolution.1 ExecutionNode.new rfl,
    claim_C10_last_resolution.2.1 lastSetNode .up rfl⟩

end TIS
